import Mathlib

/-!
Verification of the Signal-Alert scanner.

Shallow embedding of `src/scanner.py` (the `EnhancedScanner` class) together
with spec-modelled definitions for the football-pipeline components described
in the specification (`PredictionEngine`, `ReportAssembler`, `DateDiscovery`)
whose code is not present under `src/`.

Conventions of the embedding:
* Python floats are modelled exactly as rationals (`ℚ`).
* Python `None`-able values are `Option`s; a `pandas` NaN cell is `none`.
* Network traffic is abstracted by response oracles: functions from the
  request parameters to an explicit response datatype whose constructors
  enumerate the outcomes the code distinguishes (exception raised, expected
  JSON key missing, parsed payload).
* Side effects of a run (`time.sleep`, outbound HTTP calls, Telegram posts)
  are recorded in an explicit event trace.
-/

set_option linter.unusedVariables false

namespace Scanner

/-- `API_CALL_DELAY = 8  # Seconds between API calls` (scanner.py line 19). -/
def API_CALL_DELAY : ℕ := 8

/-- Binding of the module-level name `time`.
Line 6 `import time` binds it to the stdlib `time` module; line 7
`from datetime import datetime, time` immediately rebinds the same name to
the class `datetime.time`.  The attribute lookup `time.sleep` at line 329
succeeds only on the stdlib module. -/
inductive TimeName
  | stdlibModule
  | datetimeTimeClass
deriving DecidableEq, Repr

/-- Whether the object bound to the name `time` has a `sleep` attribute.
`datetime.time` has none, so `time.sleep(...)` raises `AttributeError`. -/
def timeHasSleep : TimeName → Bool
  | .stdlibModule => true
  | .datetimeTimeClass => false

/-- The binding of `time` that is in scope after the import block of
scanner.py (lines 1-11): `datetime.time`, because line 7 shadows line 6. -/
def time_name_after_imports : TimeName := .datetimeTimeClass

/-- The two data sources dispatched on in `get_current_price` /
`fetch_ohlc_data` (`'twelvedata'` and `'goldapi'`). -/
inductive DataSource
  | twelvedata
  | goldapi
deriving DecidableEq, Repr

/-- One row of the OHLC dataframe handed to the strategies, after the
numeric conversions done in `fetch_ohlc_data`.  `timeOfDay` is the `time`
column in minutes since midnight (UK); `atr` is the rolling-ATR column,
`none` standing for a NaN cell.  `s3`, `s9`, `cointegrated` are the extra
columns computed in the goldapi branch (defaulted for twelvedata rows). -/
structure Row where
  timeOfDay : ℕ
  openP : ℚ
  highP : ℚ
  lowP : ℚ
  closeP : ℚ
  atr : Option ℚ := none
  s3 : ℚ := 0
  s9 : ℚ := 0
  cointegrated : Bool := false
deriving DecidableEq, Repr

/-- `signal['direction']`. -/
inductive Direction
  | buy
  | sell
deriving DecidableEq, Repr

/-- The signal dict returned by a strategy.  Optional fields model dict
keys that may be absent; the strategies of scanner.py populate exactly the
keys shown in their `return` statements (never `atr`). -/
structure Signal where
  direction : Direction
  session_high : Option ℚ := none
  session_low : Option ℚ := none
  predicted_price : Option ℚ := none
  pip_value : Option ℚ := none
  atr : Option ℚ := none
deriving DecidableEq, Repr

/-- Tag identifying which bound method a strategy's `'function'` entry
refers to (defunctionalisation of the Python method reference). -/
inductive StrategyKind
  | asianRangeBreakout
  | goldCMAR
deriving DecidableEq, Repr

/-- A strategy dict from `self.strategies` (scanner.py lines 31-50).
`active_window` is `(start, stop)` in minutes since midnight. -/
structure Strategy where
  name : String
  pairs : List String
  timeframe : String
  active_window : ℕ × ℕ
  active_days : Option (List ℕ)
  function : StrategyKind
  data_source : DataSource
deriving DecidableEq, Repr

/-- `self.strategies` (scanner.py lines 31-50).
`time(0,30) = 30`, `time(6,0) = 360`, `time(9,0) = 540`, `time(17,0) = 1020`
minutes. -/
def strategies : List Strategy :=
  [ { name := "Asian Range Breakout"
      pairs := ["AUD/USD", "NZD/USD", "USD/JPY"]
      timeframe := "15min"
      active_window := (30, 360)
      active_days := some [0, 1, 2, 3, 4]
      function := .asianRangeBreakout
      data_source := .twelvedata },
    { name := "Gold CMAR Strategy"
      pairs := ["XAU/USD"]
      timeframe := "1h"
      active_window := (540, 1020)
      active_days := some [1, 2, 3]
      function := .goldCMAR
      data_source := .goldapi } ]

/-- The current UK wall-clock instant, at the granularity the code
inspects: `weekday()` (Monday = 0 .. Sunday = 6), `hour`, and minute. -/
structure Now where
  weekday : ℕ
  hour : ℕ
  minute : ℕ
deriving DecidableEq, Repr

/-- `now.time()` as minutes since midnight. -/
def Now.timeOfDay (n : Now) : ℕ := n.hour * 60 + n.minute

/-- `EnhancedScanner.is_strategy_active` (scanner.py lines 55-66):
`if strategy['active_days'] is not None and current_day not in
strategy['active_days']: return False` followed by
`return start <= current_time < end`. -/
def is_strategy_active (s : Strategy) (now : Now) : Bool :=
  let current_time := now.timeOfDay
  let current_day := now.weekday
  if s.active_days.isSome && !((s.active_days.getD []).contains current_day) then
    false
  else
    decide (s.active_window.1 ≤ current_time) && decide (current_time < s.active_window.2)

/-- Outcome of one realtime-price request, as distinguished by
`get_current_price` (scanner.py lines 68-85).  Every constructor except
`price` corresponds to an exception raised inside the `try` block and
swallowed by the bare `except`. -/
inductive PriceResponse
  | netError        -- `requests.get` or `response.json()` raised
  | missingPrice    -- `data['price']` raised `KeyError`
  | badPrice        -- `float(data['price'])` raised `ValueError`
  | price (v : ℚ)  -- `float(data['price'])` parsed to `v`
deriving DecidableEq, Repr

/-- A `PriceResponse` that models a failed provider interaction. -/
def PriceResponse.isErr : PriceResponse → Bool
  | .price _ => false
  | _ => true

/-- `EnhancedScanner.get_current_price` (scanner.py lines 68-85).  Both
provider branches wrap the request, JSON decode, key access and float
conversion in `try ... except: return None`. -/
def get_current_price (data_source : DataSource) (resp : PriceResponse) : Option ℚ :=
  match data_source with
  | .twelvedata =>
    match resp with
    | .price v => some v
    | _ => none
  | .goldapi =>
    match resp with
    | .price v => some v
    | _ => none

/-- Outcome of one OHLC/time-series request, as distinguished by
`fetch_ohlc_data` (scanner.py lines 87-160).  `exception` covers any raise
inside the `try` block (network, JSON decode, pandas/indicator/cointegration
processing); `missingKey` covers `'values' not in data` on the twelvedata
branch and the `data["data"]` `KeyError` on the goldapi branch.  `ok rows`
carries the parsed candle rows (indicator columns already attached, since
their numeric content comes from the provider data, which the oracle
abstracts). -/
inductive OhlcResponse
  | exception
  | missingKey
  | ok (rows : List Row)
deriving DecidableEq, Repr

/-- An `OhlcResponse` that models a failed provider interaction. -/
def OhlcResponse.isErr : OhlcResponse → Bool
  | .ok _ => false
  | _ => true

/-- `EnhancedScanner.fetch_ohlc_data` (scanner.py lines 87-160).
The twelvedata branch reverses the provider's reverse-chronological order
(`df.iloc[::-1]`) and both branches end in `df.dropna()`, modelled as
dropping the rows whose ATR cell is NaN (the rolling ATR is the column that
introduces NaNs). Any exception, and a missing `values`/`data` key, yields
`None`. -/
def fetch_ohlc_data (data_source : DataSource) (resp : OhlcResponse) :
    Option (List Row) :=
  match data_source with
  | .twelvedata =>
    match resp with
    | .exception => none
    | .missingKey => none
    | .ok rows => some ((rows.reverse).filter (fun r => r.atr.isSome))
  | .goldapi =>
    match resp with
    | .exception => none
    | .missingKey => none
    | .ok rows => some (rows.filter (fun r => r.atr.isSome))

/-- `EnhancedScanner.asian_range_breakout_strategy` (scanner.py lines
163-210).  `time(0,30) = 30` and `time(6,0) = 360` minutes; the buffer is
`latest['atr'] * 0.3` when the ATR column is present and the latest cell is
not NaN (collapsed to: the latest row's `atr` option is `some`), else
`0.001`. -/
def asian_range_breakout_strategy (df : Option (List Row)) (current_price : ℚ) :
    Option Signal :=
  match df with
  | none => none
  | some rows =>
    if rows.length < 20 then none
    else
      let start_time : ℕ := 30
      let stop_time : ℕ := 360
      let asian_session :=
        rows.filter (fun r => decide (start_time ≤ r.timeOfDay) && decide (r.timeOfDay < stop_time))
      if asian_session.length < 4 then none
      else
        match asian_session.head?, rows.getLast? with
        | some firstRow, some latest =>
          let session_high := ((asian_session.map (fun r => r.highP)).max?).getD 0
          let session_low := ((asian_session.map (fun r => r.lowP)).min?).getD 0
          let session_open := firstRow.openP
          let buffer : ℚ :=
            match latest.atr with
            | some a => a * (3 / 10)
            | none => 1 / 1000
          if current_price > session_high + buffer ∧
              current_price > session_open ∧
              latest.closeP > latest.openP then
            some { direction := .buy
                   session_high := some session_high
                   session_low := some session_low
                   pip_value := some 10000 }
          else if current_price < session_low - buffer ∧
              current_price < session_open ∧
              latest.closeP < latest.openP then
            some { direction := .sell
                   session_high := some session_high
                   session_low := some session_low
                   pip_value := some 10000 }
          else none
        | _, _ => none

/-- `EnhancedScanner.gold_strategy` (scanner.py lines 212-256).
The training call is
`model.fit(train_df[["S_3", "S_9"]], train_df["close"].shift(-1).dropna())`:
the feature matrix has `len(train_df)` rows while the shifted-and-dropped
target has `len(train_df) - 1` rows, so scikit-learn's sample-count
validation raises `ValueError`, which the surrounding
`except Exception` swallows, returning `None`.  The branch is kept explicit
below so every guard preceding the raise is still faithfully modelled. -/
def gold_strategy (df : Option (List Row)) (current_price : ℚ) : Option Signal :=
  match df with
  | none => none
  | some rows =>
    if rows.length < 50 then none
    else
      match rows.getLast? with
      | none => none
      | some latest =>
        if !latest.cointegrated then none
        else
          let train_df := rows.filter (fun r => r.cointegrated)
          if train_df.length < 50 then none
          else
            -- model.fit raises ValueError (n features rows vs n-1 targets);
            -- caught by `except Exception as e` -> return None
            none

/-- Dispatch of `strategy['function']`. -/
def runStrategy : StrategyKind → Option (List Row) → ℚ → Option Signal
  | .asianRangeBreakout => asian_range_breakout_strategy
  | .goldCMAR => gold_strategy

/-- `EnhancedScanner.calculate_targets` (scanner.py lines 259-282). -/
def calculate_targets (signal : Signal) (current_price : ℚ) : ℚ × ℚ × ℚ :=
  let pip_value := signal.pip_value.getD 10000
  let base_tp : ℚ := 20 / pip_value
  let base_sl : ℚ := 15 / pip_value
  let base_tp :=
    match signal.atr with
    | some a =>
      let volatility := a * pip_value
      if volatility > 15 then 25 / pip_value
      else if volatility < 8 then 15 / pip_value
      else base_tp
    | none => base_tp
  match signal.direction with
  | .buy => (current_price + base_tp, current_price - base_sl, base_tp * pip_value)
  | .sell => (current_price - base_tp, current_price + base_sl, base_tp * pip_value)

/-- An outbound provider call attempted during the run. -/
inductive ApiCall
  | priceReq (pair : String) (ds : DataSource)   -- `requests.get` in get_current_price
  | ohlcReq (pair : String) (tf : String) (ds : DataSource) -- `requests.get` in fetch_ohlc_data
deriving DecidableEq, Repr

/-- A side effect of one run, in program order.  `sleepCall s` records a
successful `time.sleep(s)` (wall-clock pause of `s` seconds); `apiCall`
records an outbound provider request; `telegram` records a
`send_telegram_message` POST. -/
inductive Event
  | sleepCall (seconds : ℕ)
  | apiCall (c : ApiCall)
  | telegram
deriving DecidableEq, Repr

/-- Status string appended to `scan_results` for one pair. -/
inductive PairStatus
  | priceFetchFailed  -- "Price fetch failed"
  | dataFetchFailed   -- "Data fetch failed"
  | signalSent        -- "Signal sent"
  | signalTelegramFailed -- "Signal (Telegram failed)"
  | noSignal          -- "No signal"
deriving DecidableEq, Repr

/-- The merged `full_signal = {**signal, **signal_details}` appended to
`self.signals` (scanner.py lines 359-370). -/
structure FullSignal where
  sig : Signal
  entry : ℚ
  tp : ℚ
  sl : ℚ
  pips : ℚ
  strategy : String
  pair : String
deriving DecidableEq, Repr

/-- The only uncaught exception a run can raise:
`AttributeError: type object 'datetime.time' has no attribute 'sleep'`
at `time.sleep(API_CALL_DELAY)` (scanner.py line 329). -/
inductive ScanError
  | attributeError
deriving DecidableEq, Repr

/-- Abstraction of the external world for one run: the current UK time and
response oracles for the two request helpers and the Telegram sink. -/
structure Env where
  now : Now
  priceResp : String → DataSource → PriceResponse
  ohlcResp : String → String → DataSource → OhlcResponse
  telegramOk : Bool

/-- Mutable state threaded through `scan`'s loops. -/
structure St where
  trace : List Event
  signals : List FullSignal
  scanResults : List PairStatus
  signalCount : ℕ

/-- Append one event to the trace. -/
def St.emit (st : St) (e : Event) : St := { st with trace := st.trace ++ [e] }

/-- Append one pair status to `scan_results`. -/
def St.addResult (st : St) (r : PairStatus) : St :=
  { st with scanResults := st.scanResults ++ [r] }

/-- Body of the per-pair loop of `EnhancedScanner.scan`
(scanner.py lines 328-407).  The loop body starts with
`time.sleep(API_CALL_DELAY)`; since `time` is the name bound by the import
block, the attribute lookup fails unless it denotes the stdlib module, and
the resulting `AttributeError` propagates (no `try` encloses the loop).
`.error st` carries the state at the moment the exception escapes. -/
def scanPair (tb : TimeName) (env : Env) (s : Strategy) (pair : String)
    (st : St) : Except St St := do
  -- time.sleep(API_CALL_DELAY)
  if !timeHasSleep tb then throw st
  let st := st.emit (.sleepCall API_CALL_DELAY)
  -- current_price = self.get_current_price(pair, strategy['data_source'])
  let st := st.emit (.apiCall (.priceReq pair s.data_source))
  match get_current_price s.data_source (env.priceResp pair s.data_source) with
  | none => return st.addResult .priceFetchFailed
  | some current_price =>
    -- df = self.fetch_ohlc_data(pair, strategy['timeframe'], strategy['data_source'])
    let st := st.emit (.apiCall (.ohlcReq pair s.timeframe s.data_source))
    match fetch_ohlc_data s.data_source (env.ohlcResp pair s.timeframe s.data_source) with
    | none => return st.addResult .dataFetchFailed
    | some rows =>
      if rows.length < 20 then return st.addResult .dataFetchFailed
      else
        -- signal = strategy['function'](df, current_price)
        match runStrategy s.function (some rows) current_price with
        | none => return st.addResult .noSignal
        | some signal =>
          let (tp, sl, pips) := calculate_targets signal current_price
          let full : FullSignal :=
            { sig := signal, entry := current_price, tp := tp, sl := sl
              pips := pips, strategy := s.name, pair := pair }
          let st := { st with signals := st.signals ++ [full] }
          -- self.send_telegram_message(detailed_msg)
          let st := st.emit .telegram
          let st :=
            if env.telegramOk then st.addResult .signalSent
            else st.addResult .signalTelegramFailed
          return { st with signalCount := st.signalCount + 1 }

/-- Per-strategy part of `EnhancedScanner.scan` (lines 320-327): skip the
strategy when `is_strategy_active` is false, else run the pair loop. -/
def scanStrategy (tb : TimeName) (env : Env) (st : Except St St)
    (s : Strategy) : Except St St :=
  st.bind fun st =>
    if !is_strategy_active s env.now then .ok st
    else s.pairs.foldl (fun acc pair => acc.bind (scanPair tb env s pair)) (.ok st)

/-- Observable outcome of one `scan()` invocation. -/
structure Outcome where
  trace : List Event
  signals : List FullSignal
  scanResults : List PairStatus
  signalCount : ℕ
  error : Option ScanError
  summarySent : Bool
deriving Repr

/-- `summary_title` (scanner.py line 410): Python truthiness of
`signal_count` and the plural `'S' if signal_count != 1`. -/
def summary_title (signal_count : ℕ) : String :=
  if signal_count ≠ 0 then
    toString signal_count ++ " SIGNAL" ++ (if signal_count ≠ 1 then "S" else "") ++ " FOUND"
  else "NO SIGNALS"

/-- `EnhancedScanner.scan` (scanner.py lines 299-420), parametrised by the
binding of the name `time` (`tb`) and the external world (`env`);
`initSignals` is `self.signals` on entry.  The two early returns are the
weekend guard (`current_day >= 5`) and the Friday-evening guard
(`current_day == 4 and current_hour > 18`); they precede every outbound
request.  After the strategy loops, the summary message is always posted —
unless the `AttributeError` from `time.sleep` escaped first. -/
def scan (tb : TimeName) (env : Env) (initSignals : List FullSignal) : Outcome :=
  let now := env.now
  let current_day := now.weekday
  let current_hour := now.hour
  if current_day ≥ 5 then
    { trace := [], signals := initSignals, scanResults := [], signalCount := 0
      error := none, summarySent := false }
  else if current_day = 4 ∧ current_hour > 18 then
    { trace := [], signals := initSignals, scanResults := [], signalCount := 0
      error := none, summarySent := false }
  else
    let st0 : St := { trace := [], signals := initSignals, scanResults := [], signalCount := 0 }
    match strategies.foldl (scanStrategy tb env) (.ok st0) with
    | .error st =>
      { trace := st.trace, signals := st.signals, scanResults := st.scanResults
        signalCount := st.signalCount, error := some .attributeError, summarySent := false }
    | .ok st =>
      -- self.send_telegram_message(summary_msg)
      let st := st.emit .telegram
      { trace := st.trace, signals := st.signals, scanResults := st.scanResults
        signalCount := st.signalCount, error := none, summarySent := true }

/-- True when between any two outbound provider calls of the trace, sleeps
totalling at least `gap` seconds are guaranteed to have elapsed.  Only
`sleepCall` events guarantee elapsed wall-clock time; every other operation
may complete arbitrarily fast, so the guaranteed spacing between two calls
is the sum of the sleeps strictly between them. -/
def callSpacingGo (gap : ℕ) : Option ℕ → List Event → Bool
  | _, [] => true
  | sinceLast, .sleepCall s :: rest =>
    callSpacingGo gap (sinceLast.map (· + s)) rest
  | sinceLast, .apiCall _ :: rest =>
    match sinceLast with
    | some acc => decide (gap ≤ acc) && callSpacingGo gap (some 0) rest
    | none => callSpacingGo gap (some 0) rest
  | sinceLast, .telegram :: rest => callSpacingGo gap sinceLast rest

/-- Entry point of `callSpacingGo`: no provider call seen yet. -/
def callSpacingOk (gap : ℕ) (tr : List Event) : Bool :=
  callSpacingGo gap none tr

/-- Number of outbound provider calls recorded in a trace. -/
def countApiCalls (tr : List Event) : ℕ :=
  tr.countP (fun e => match e with | .apiCall _ => true | _ => false)

end Scanner

namespace PredictionEngine

/-- Modelled from the spec: §3 **Fixture** — only the fields the rule
engine reads (home/away team ids); the football-pipeline source is not
under `src/`. -/
structure Fixture where
  homeId : ℕ
  awayId : ℕ
deriving DecidableEq, Repr

/-- Modelled from the spec: §3 **HistoricalMatch** — home/away team ids and
home/away final scores (non-negative integers). -/
structure HistoricalMatch where
  homeId : ℕ
  awayId : ℕ
  homeGoals : ℕ
  awayGoals : ℕ
deriving DecidableEq, Repr

/-- Which of the three per-fixture samples a prediction was derived from. -/
inductive SampleKind
  | h2h
  | homeForm
  | awayForm
deriving DecidableEq, Repr

/-- Modelled from the spec: §4.3 — the fixed label taxonomy. -/
inductive LabelKind
  | w1H2H      -- "W1 (H2H: k/n)"
  | w2H2H      -- "W2 (H2H: k/n)"
  | w1Form     -- "W1 (Home Form: k/n)"
  | w2Form     -- "W2 (Away Form: k/n)"
  | bts        -- "BTS (H2H: k/n)"
  | over25     -- "Over 2.5 (H2H: k/n)"
  | under25    -- "Under 2.5 (H2H: k/n)"
deriving DecidableEq, Repr

/-- Modelled from the spec: §3 **Prediction** — a label plus the supporting
count `k` and sample size `n`, tagged with the sample it came from. -/
structure Prediction where
  label : LabelKind
  support : ℕ
  sampleSize : ℕ
  source : SampleKind
deriving DecidableEq, Repr

/-- A historical match won by team `teamId` (playing at either venue). -/
def wonBy (teamId : ℕ) (m : HistoricalMatch) : Bool :=
  (m.homeId == teamId && decide (m.awayGoals < m.homeGoals)) ||
  (m.awayId == teamId && decide (m.homeGoals < m.awayGoals))

/-- Number of matches of the sample won by `teamId`. -/
def countWins (teamId : ℕ) (sample : List HistoricalMatch) : ℕ :=
  (sample.filter (wonBy teamId)).length

/-- Modelled from the spec: §4.3 rule "Home H2H dominance" — requires the
sample to have ≥ 3 matches, fires when the fixture's home team won ≥ 3 of
the sample. -/
def ruleHomeH2H (fx : Fixture) (h2h : List HistoricalMatch) : Option Prediction :=
  let k := countWins fx.homeId h2h
  if 3 ≤ h2h.length ∧ 3 ≤ k then
    some { label := .w1H2H, support := k, sampleSize := h2h.length, source := .h2h }
  else none

/-- Modelled from the spec: §4.3 rule "Away H2H dominance" (the caller only
evaluates it when home dominance did not fire). -/
def ruleAwayH2H (fx : Fixture) (h2h : List HistoricalMatch) : Option Prediction :=
  let k := countWins fx.awayId h2h
  if 3 ≤ h2h.length ∧ 3 ≤ k then
    some { label := .w2H2H, support := k, sampleSize := h2h.length, source := .h2h }
  else none

/-- Modelled from the spec: §4.3 rule "Home form" — home team won ≥ 3 of
its home-venue sample. -/
def ruleHomeForm (fx : Fixture) (homeForm : List HistoricalMatch) : Option Prediction :=
  let k := countWins fx.homeId homeForm
  if 3 ≤ homeForm.length ∧ 3 ≤ k then
    some { label := .w1Form, support := k, sampleSize := homeForm.length, source := .homeForm }
  else none

/-- Modelled from the spec: §4.3 rule "Away form" — away team won ≥ 3 of
its away-venue sample. -/
def ruleAwayForm (fx : Fixture) (awayForm : List HistoricalMatch) : Option Prediction :=
  let k := countWins fx.awayId awayForm
  if 3 ≤ awayForm.length ∧ 3 ≤ k then
    some { label := .w2Form, support := k, sampleSize := awayForm.length, source := .awayForm }
  else none

/-- Both teams scored (both final scores > 0). -/
def btsMatch (m : HistoricalMatch) : Bool :=
  decide (0 < m.homeGoals) && decide (0 < m.awayGoals)

/-- Modelled from the spec: §4.3 rule "Both-teams-score" over the h2h
sample. -/
def ruleBTS (h2h : List HistoricalMatch) : Option Prediction :=
  let k := (h2h.filter btsMatch).length
  if 3 ≤ h2h.length ∧ 3 ≤ k then
    some { label := .bts, support := k, sampleSize := h2h.length, source := .h2h }
  else none

/-- Combined goals strictly above 2.5 (integer totals: `2*t > 5`). -/
def overMatch (m : HistoricalMatch) : Bool :=
  decide (5 < 2 * (m.homeGoals + m.awayGoals))

/-- Combined goals strictly below 2.5 (integer totals: `2*t < 5`). -/
def underMatch (m : HistoricalMatch) : Bool :=
  decide (2 * (m.homeGoals + m.awayGoals) < 5)

/-- Modelled from the spec: §4.3 rule "Over 2.5" over the h2h sample. -/
def ruleOver (h2h : List HistoricalMatch) : Option Prediction :=
  let k := (h2h.filter overMatch).length
  if 3 ≤ h2h.length ∧ 3 ≤ k then
    some { label := .over25, support := k, sampleSize := h2h.length, source := .h2h }
  else none

/-- Modelled from the spec: §4.3 rule "Under 2.5" over the h2h sample. -/
def ruleUnder (h2h : List HistoricalMatch) : Option Prediction :=
  let k := (h2h.filter underMatch).length
  if 3 ≤ h2h.length ∧ 3 ≤ k then
    some { label := .under25, support := k, sampleSize := h2h.length, source := .h2h }
  else none

/-- Modelled from the spec: §4.3 `evaluate(fixture, h2h, homeForm,
awayForm)` — rules in table order; away H2H dominance is only checked when
home H2H dominance did not fire; a rule whose sample is too small or whose
condition fails contributes nothing. -/
def evaluate (fx : Fixture) (h2h homeForm awayForm : List HistoricalMatch) :
    List Prediction :=
  let home := ruleHomeH2H fx h2h
  let away := if home.isSome then none else ruleAwayH2H fx h2h
  home.toList ++ away.toList ++ (ruleHomeForm fx homeForm).toList ++
    (ruleAwayForm fx awayForm).toList ++ (ruleBTS h2h).toList ++
    (ruleOver h2h).toList ++ (ruleUnder h2h).toList

/-- The sample a `SampleKind` selects among the three inputs of
`evaluate`. -/
def sampleOf (k : SampleKind) (h2h homeForm awayForm : List HistoricalMatch) :
    List HistoricalMatch :=
  match k with
  | .h2h => h2h
  | .homeForm => homeForm
  | .awayForm => awayForm

end PredictionEngine

namespace DateDiscovery

/-- Modelled from the spec: §4.5 — outcome of one minimal existence probe
of a league for a date.  A rate-limit response is "not yet determined": it
neither includes nor excludes the date. -/
inductive ProbeResult
  | hasMatch
  | noMatch
  | rateLimited
deriving DecidableEq, Repr

/-- Modelled from the spec: §4.5 — a date is included as soon as any league
reports ≥ 1 match that day (short-circuiting, which `List.any` does);
rate-limited leagues contribute nothing. -/
def dateHasFixtures (probe : ℕ → ℕ → ProbeResult) (leagues : List ℕ) (d : ℕ) : Bool :=
  leagues.any (fun lg => probe d lg == .hasMatch)

/-- Modelled from the spec: §4.5 `findUpcomingDates(windowDays)` — probes
the next `windowDays` calendar days starting today (dates as day numbers),
keeps those with fixtures, and degrades to `[today]` when the filter is
empty. -/
def findUpcomingDates (probe : ℕ → ℕ → ProbeResult) (leagues : List ℕ)
    (today : ℕ) (windowDays : ℕ) : List ℕ :=
  let dates := ((List.range windowDays).map (fun i => today + i)).filter
    (dateHasFixtures probe leagues)
  if dates.isEmpty then [today] else dates

end DateDiscovery

namespace ReportAssembler

/-- Modelled from the spec: §3 **DateReport** — date, total fixtures
scanned, the ordered fixture prediction summaries, and the count of
fixtures with ≥ 1 prediction. -/
structure DateReport where
  date : String
  totalFixtures : ℕ
  summaries : List String
  predicted : ℕ
deriving DecidableEq, Repr

/-- The four payload roles of §4.6. -/
inductive PayloadKind
  | headerMsg
  | body
  | footerMsg
  | noSignalsMsg
deriving DecidableEq, Repr

/-- Modelled from the spec: §4.6 — one notification payload.  Body payloads
carry their date and a continuation flag in the heading and the fixture
summaries as lines; the heading of a continuation payload carries the
"(cont.)" marker. -/
structure Payload where
  kind : PayloadKind
  date : String
  cont : Bool
  lines : List String
deriving DecidableEq, Repr

/-- Modelled from the spec: §4.6 — the fixed character budget (≈3500). -/
def CHAR_BUDGET : ℕ := 3500

/-- Rendering of the line block: each line preceded by a newline. -/
def linesText : List String → String
  | [] => ""
  | l :: ls => ("\n" ++ l) ++ linesText ls

/-- Heading of a payload; a continuation body payload carries the
"(cont.)" marker for the same date. -/
def headingText (p : Payload) : String :=
  match p.kind with
  | .body => "SIGNALS " ++ p.date ++ (if p.cont then " (cont.)" else "")
  | .headerMsg => "SCAN TOTALS"
  | .footerMsg => "DISCLAIMER"
  | .noSignalsMsg => "NO SIGNALS"

/-- Full rendered text of a payload. -/
def payloadText (p : Payload) : String :=
  headingText p ++ linesText p.lines

/-- Character count of a payload, computed arithmetically: heading length
plus, per summary line, one newline and the line. (Certified against the
rendering by `payloadLen_eq_text_length` below.) -/
def payloadLen (p : Payload) : ℕ :=
  (headingText p).length + (p.lines.map (fun s => 1 + s.length)).sum

/-- Modelled from the spec: §4.6 — the greedy pagination loop for one
date.  Summaries are appended to the current payload until appending the
next one would exceed the budget, at which point the current payload is
closed and a continuation payload is opened before appending continues. -/
def packGo (date : String) : List String → Payload → List Payload → List Payload
  | [], cur, acc => if cur.lines.isEmpty then acc else acc ++ [cur]
  | s :: rest, cur, acc =>
    let cand : Payload := { cur with lines := cur.lines ++ [s] }
    if CHAR_BUDGET < payloadLen cand ∧ cur.lines ≠ [] then
      packGo date rest { kind := .body, date := date, cont := true, lines := [s] }
        (acc ++ [cur])
    else
      packGo date rest cand acc

/-- Modelled from the spec: §4.6 — the body payloads of one date (none when
the date has no summaries). -/
def packDate (r : DateReport) : List Payload :=
  packGo r.date r.summaries
    { kind := .body, date := r.date, cont := false, lines := [] } []

/-- The totals line of the header payload. -/
def headerLine (rs : List DateReport) : String :=
  "Dates: " ++ toString rs.length ++ " | Fixtures: " ++
    toString (rs.map (·.totalFixtures)).sum ++ " | With predictions: " ++
    toString (rs.map (·.predicted)).sum

/-- The summary line of the no-signals payload. -/
def noSignalsLine (rs : List DateReport) : String :=
  "Scanned " ++ toString (rs.map (·.totalFixtures)).sum ++ " fixtures over " ++
    toString rs.length ++ " dates, no signals"

/-- Modelled from the spec: §4.6 `assemble(sequence of DateReport)`:
header payload, then per date its body payloads in order, then the footer
payload; if no date produced any signal, a single no-signals payload
instead. -/
def assemble (rs : List DateReport) : List Payload :=
  if rs.all (fun r => r.summaries.isEmpty) then
    [{ kind := .noSignalsMsg, date := "", cont := false, lines := [noSignalsLine rs] }]
  else
    { kind := .headerMsg, date := "", cont := false, lines := [headerLine rs] } ::
      ((rs.map packDate).flatten ++
        [{ kind := .footerMsg, date := "", cont := false, lines := ["Predictions are heuristic counts, not advice"] }])

/-- The body payloads emitted for date `d`, in order. -/
def bodiesFor (ps : List Payload) (d : String) : List Payload :=
  ps.filter (fun p => p.kind == PayloadKind.body && p.date == d)

/-- Concatenation of the fixture-summary lines of a payload sequence —
"the body payloads with continuation markers stripped" (the marker lives in
the heading, the lines are the summaries). -/
def linesOf (ps : List Payload) : List String :=
  (ps.map (fun p => p.lines)).flatten

/-- The input fixture-summary sequence attributed to date `d`. -/
def summariesFor (rs : List DateReport) (d : String) : List String :=
  ((rs.filter (fun r => r.date == d)).map (fun r => r.summaries)).flatten

/-- Every body payload of the sequence fits the character budget. -/
def bodiesWithinBudget (ps : List Payload) : Bool :=
  ps.all (fun p => !(p.kind == PayloadKind.body) || decide (payloadLen p ≤ CHAR_BUDGET))

/-- Character overhead of a (worst-case: continuation) body payload heading
for date `d`, plus the newline in front of a summary line. -/
def contOverhead (d : String) : ℕ :=
  ("SIGNALS " ++ d ++ " (cont.)").length + 1

/-- Every summary of every report fits the budget net of its payload's
heading overhead. -/
def summariesFit (rs : List DateReport) : Prop :=
  ∀ r ∈ rs, ∀ s ∈ r.summaries, contOverhead r.date + s.length ≤ CHAR_BUDGET

end ReportAssembler

/-! ## Concrete inputs used by witnesses and counterexamples -/

namespace Scanner

/-- Monday 01:00 UK: the weekend guard passes and the Asian Range Breakout
strategy is active (`0 ∈ [0,1,2,3,4]`, `30 ≤ 60 < 360`). -/
def envMonday : Env :=
  { now := { weekday := 0, hour := 1, minute := 0 }
    priceResp := fun _ _ => .price 1
    ohlcResp := fun _ _ _ => .exception
    telegramOk := true }

/-- Saturday noon UK: the weekend guard fires. -/
def envSaturday : Env :=
  { now := { weekday := 5, hour := 12, minute := 0 }
    priceResp := fun _ _ => .price 1
    ohlcResp := fun _ _ _ => .exception
    telegramOk := true }

/-- An OHLC row inside the Asian session (01:00) on which the bullish
breakout conditions hold at price 3. -/
def rowW : Row :=
  { timeOfDay := 60, openP := 1, highP := 2, lowP := 1, closeP := 2, atr := some 1 }

/-- Twenty copies of `rowW`: enough rows overall and in the Asian session
for `asian_range_breakout_strategy` to evaluate its breakout branch. -/
def rowsW : List Row := List.replicate 20 rowW

/-- The signal `asian_range_breakout_strategy` returns on `rowsW` at
current price 3 (bullish breakout: `3 > 2 + 0.3`, `3 > 1`, `2 > 1`). -/
def sigW : Signal :=
  { direction := .buy, session_high := some 2, session_low := some 1
    pip_value := some 10000 }

/-- The first strategy dict of `strategies` (Asian Range Breakout). -/
def asianStrategy : Strategy :=
  { name := "Asian Range Breakout"
    pairs := ["AUD/USD", "NZD/USD", "USD/JPY"]
    timeframe := "15min"
    active_window := (30, 360)
    active_days := some [0, 1, 2, 3, 4]
    function := .asianRangeBreakout
    data_source := .twelvedata }

end Scanner

namespace PredictionEngine

/-- A fixture between teams 1 (home) and 2 (away). -/
def fxW : Fixture := { homeId := 1, awayId := 2 }

/-- A two-match head-to-head sample (below every rule's minimum of 3),
won by the home team both times. -/
def h2hSmall : List HistoricalMatch :=
  [ { homeId := 1, awayId := 2, homeGoals := 2, awayGoals := 0 },
    { homeId := 2, awayId := 1, homeGoals := 0, awayGoals := 1 } ]

/-- A five-match home-form sample, all won by team 1. -/
def formW : List HistoricalMatch :=
  List.replicate 5 { homeId := 1, awayId := 3, homeGoals := 2, awayGoals := 1 }

end PredictionEngine

namespace DateDiscovery

/-- A probe oracle under which no league ever reports a match. -/
def probeNone : ℕ → ℕ → ProbeResult := fun _ _ => .noMatch

end DateDiscovery

namespace ReportAssembler

/-- A 4000-character fixture summary: longer than the whole character
budget. -/
def sBig : String := String.mk (List.replicate 4000 'a')

/-- A report sequence containing the oversized summary `sBig`. -/
def rsBad : List DateReport :=
  [{ date := "2026-01-01", totalFixtures := 1, summaries := [sBig], predicted := 1 }]

/-- A small well-behaved report sequence. -/
def rsGood : List DateReport :=
  [{ date := "2026-01-01", totalFixtures := 2
     summaries := ["A 2-1 B: W1 (H2H: 3/5)", "C 0-0 D: Under 2.5 (H2H: 4/5)"]
     predicted := 2 }]

end ReportAssembler

/-! ## Theorems -/

/-- **C3.** Every data-fetch operation — current price (`get_current_price`)
or historical OHLC (`fetch_ohlc_data`) — maps any error in either provider
path (network failure, malformed response, missing field) to the empty
result `None`; the error is swallowed by the surrounding `try/except` and
never escalated (both functions are total and `Option`-valued). -/
theorem fetch_errors_yield_none :
    (∀ (ds : Scanner.DataSource) (r : Scanner.PriceResponse), r.isErr = true →
      Scanner.get_current_price ds r = none) ∧
    (∀ (ds : Scanner.DataSource) (r : Scanner.OhlcResponse), r.isErr = true →
      Scanner.fetch_ohlc_data ds r = none) := by
  constructor
  · intro ds r h
    cases ds <;> cases r <;> simp_all [Scanner.get_current_price, Scanner.PriceResponse.isErr]
  · intro ds r h
    cases ds <;> cases r <;> simp_all [Scanner.fetch_ohlc_data, Scanner.OhlcResponse.isErr]

/-- Witness for **C3**: a network error on each path concretely yields
`none`. -/
theorem fetch_errors_yield_none_witness :
    Scanner.get_current_price .twelvedata .netError = none ∧
    Scanner.fetch_ohlc_data .goldapi .exception = none :=
  ⟨fetch_errors_yield_none.1 _ _ rfl, fetch_errors_yield_none.2 _ _ rfl⟩

/-- **C1** (code bug, evaluated at the failing input).  On Monday 01:00 UK
— where the guard passes and the Asian Range Breakout strategy is active —
`scan` does *not* run to completion: the very first per-pair step
`time.sleep(API_CALL_DELAY)` raises `AttributeError` (the name `time` is
bound to the class `datetime.time` by line 7's import, which has no `sleep`
attribute), the exception propagates out of `scan`, and no summary message
is ever sent. -/
theorem scan_crashes_when_strategy_active :
    (Scanner.scan Scanner.time_name_after_imports Scanner.envMonday []).error =
      some .attributeError ∧
    (Scanner.scan Scanner.time_name_after_imports Scanner.envMonday []).summarySent = false := by
  decide

/-- **C2** (code bug, evaluated at the failing input).  The configured
8-second spacing between outbound provider calls is not delivered: with the
code as written (`time` bound to `datetime.time`), the run on Monday 01:00
UK crashes before a single provider call is issued; and even under the
intended binding of `time` to the stdlib module, the per-pair loop sleeps
only once per pair and then issues the current-price call and the OHLC call
back-to-back, so the trace violates the 8-second minimum spacing. -/
theorem scan_call_spacing_violated :
    Scanner.callSpacingOk Scanner.API_CALL_DELAY
      (Scanner.scan .stdlibModule Scanner.envMonday []).trace = false ∧
    Scanner.countApiCalls
      (Scanner.scan Scanner.time_name_after_imports Scanner.envMonday []).trace = 0 := by
  decide

/-- **C9.** Whenever the UK-local weekday is Saturday or Sunday, or Friday
with the hour strictly greater than 18, `scan` returns before any outbound
network call or Telegram message (empty event trace) and leaves the
scanner's signals list unchanged, raising nothing. -/
theorem scan_weekend_guard (tb : Scanner.TimeName) (env : Scanner.Env)
    (init : List Scanner.FullSignal)
    (h : env.now.weekday = 5 ∨ env.now.weekday = 6 ∨
      (env.now.weekday = 4 ∧ 18 < env.now.hour)) :
    (Scanner.scan tb env init).trace = [] ∧
    (Scanner.scan tb env init).signals = init ∧
    (Scanner.scan tb env init).error = none := by
  unfold Scanner.scan
  rcases h with h | h | ⟨h4, h18⟩
  · rw [if_pos (by omega)]
    exact ⟨rfl, rfl, rfl⟩
  · rw [if_pos (by omega)]
    exact ⟨rfl, rfl, rfl⟩
  · rw [if_neg (by omega), if_pos (by omega)]
    exact ⟨rfl, rfl, rfl⟩

/-- Witness for **C9**: Saturday noon. -/
theorem scan_weekend_guard_witness :
    (Scanner.scan Scanner.time_name_after_imports Scanner.envSaturday []).trace = [] ∧
    (Scanner.scan Scanner.time_name_after_imports Scanner.envSaturday []).signals = [] ∧
    (Scanner.scan Scanner.time_name_after_imports Scanner.envSaturday []).error = none :=
  scan_weekend_guard _ _ _ (Or.inl rfl)

/-- **C10.** For every strategy of the scanner and every UK time,
`is_strategy_active` returns `true` iff the current weekday is in the
strategy's `active_days` and the current time lies in the half-open window
`[start, stop)`: active at exactly the start boundary, inactive at exactly
the stop boundary. -/
theorem is_strategy_active_iff (s : Scanner.Strategy)
    (hs : s ∈ Scanner.strategies) (now : Scanner.Now) :
    Scanner.is_strategy_active s now = true ↔
      (now.weekday ∈ s.active_days.getD [] ∧
        s.active_window.1 ≤ now.timeOfDay ∧ now.timeOfDay < s.active_window.2) := by
  simp only [Scanner.strategies, List.mem_cons, List.mem_singleton] at hs
  rcases hs with rfl | rfl | h
  · simp [Scanner.is_strategy_active, List.elem_iff]
  · simp [Scanner.is_strategy_active, List.elem_iff]
  · cases h

/-- Witness for **C10**: the Asian Range Breakout strategy on Monday
01:00 UK (weekday 0, 60 minutes past midnight). -/
theorem is_strategy_active_iff_witness :
    Scanner.asianStrategy ∈ Scanner.strategies ∧
    (Scanner.is_strategy_active Scanner.asianStrategy
        { weekday := 0, hour := 1, minute := 0 } = true ↔
      (0 ∈ Scanner.asianStrategy.active_days.getD [] ∧
        Scanner.asianStrategy.active_window.1 ≤
          Scanner.Now.timeOfDay { weekday := 0, hour := 1, minute := 0 } ∧
        Scanner.Now.timeOfDay { weekday := 0, hour := 1, minute := 0 } <
          Scanner.asianStrategy.active_window.2)) :=
  ⟨by decide, is_strategy_active_iff Scanner.asianStrategy (by decide) _⟩

/-- Every signal `asian_range_breakout_strategy` returns carries
`pip_value = 10000` and no `atr` key (both its `return` dicts, scanner.py
lines 189-194 and 200-205). -/
theorem asian_signal_fields (rows : List Scanner.Row) (cp : ℚ) (sig : Scanner.Signal)
    (h : Scanner.asian_range_breakout_strategy (some rows) cp = some sig) :
    sig.pip_value = some 10000 ∧ sig.atr = none := by
  unfold Scanner.asian_range_breakout_strategy at h
  dsimp only at h
  repeat' split at h
  all_goals simp only [Option.some.injEq, reduceCtorEq] at h
  all_goals obtain rfl := h
  all_goals exact ⟨rfl, rfl⟩

/-- `gold_strategy` never returns a signal: when every guard passes, the
`model.fit` call raises `ValueError` (feature matrix has one more row than
the shifted target) and the `except Exception` turns it into `None`. -/
theorem gold_strategy_eq_none (df : Option (List Scanner.Row)) (cp : ℚ) :
    Scanner.gold_strategy df cp = none := by
  unfold Scanner.gold_strategy
  dsimp only
  repeat' split
  all_goals rfl

/-- **C8.** Every signal dict returned by `asian_range_breakout_strategy`
or `gold_strategy` contains no `atr` key, so `calculate_targets` returns a
pips value of exactly 20, and the targets bracket the entry: `sl < entry <
tp` for a BUY signal and `tp < entry < sl` for a SELL signal. -/
theorem calculate_targets_spec (rows : List Scanner.Row) (cp : ℚ)
    (sig : Scanner.Signal)
    (h : Scanner.asian_range_breakout_strategy (some rows) cp = some sig ∨
      Scanner.gold_strategy (some rows) cp = some sig) :
    (Scanner.calculate_targets sig cp).2.2 = 20 ∧
    (sig.direction = .buy →
      (Scanner.calculate_targets sig cp).2.1 < cp ∧
      cp < (Scanner.calculate_targets sig cp).1) ∧
    (sig.direction = .sell →
      (Scanner.calculate_targets sig cp).1 < cp ∧
      cp < (Scanner.calculate_targets sig cp).2.1) := by
  rcases h with h | h
  · obtain ⟨hpv, hatr⟩ := asian_signal_fields rows cp sig h
    cases hd : sig.direction <;>
      simp [Scanner.calculate_targets, hpv, hatr, hd]
  · rw [gold_strategy_eq_none] at h
    cases h

/-- `max?` of a constant nonempty list. -/
theorem max?_replicate_self {a : Type} [LinearOrder a] (n : ℕ) (x : a) :
    (List.replicate (n + 1) x).max? = some x := by
  induction n with
  | zero => rfl
  | succ m ih =>
    rw [List.replicate_succ, List.max?_cons, ih]
    simp

/-- `min?` of a constant nonempty list. -/
theorem min?_replicate_self {a : Type} [LinearOrder a] (n : ℕ) (x : a) :
    (List.replicate (n + 1) x).min? = some x := by
  induction n with
  | zero => rfl
  | succ m ih =>
    rw [List.replicate_succ, List.min?_cons, ih]
    simp

/-- `getLast?` of a constant nonempty list. -/
theorem getLast?_replicate_self {a : Type} (n : ℕ) (x : a) :
    (List.replicate (n + 1) x).getLast? = some x := by
  induction n with
  | zero => rfl
  | succ m ih =>
    rw [List.replicate_succ, List.getLast?_cons, ih]
    rfl

/-- Evaluation of the Asian-range-breakout strategy on the witness rows:
the bullish-breakout branch fires at price 3. -/
theorem asian_eval_rowsW :
    Scanner.asian_range_breakout_strategy (some Scanner.rowsW) 3 = some Scanner.sigW := by
  have hfilt :
      (List.replicate 20 Scanner.rowW).filter
        (fun r => decide (30 ≤ r.timeOfDay) && decide (r.timeOfDay < 360)) =
        List.replicate 20 Scanner.rowW :=
    List.filter_replicate_of_pos (by rfl)
  unfold Scanner.asian_range_breakout_strategy Scanner.rowsW
  dsimp only
  rw [hfilt, List.length_replicate, if_neg (by norm_num), if_neg (by norm_num),
    List.map_replicate, List.map_replicate,
    show (20 : ℕ) = 19 + 1 from rfl,
    max?_replicate_self, min?_replicate_self, getLast?_replicate_self,
    List.replicate_succ, List.head?_cons]
  dsimp only
  rw [if_pos (by norm_num [Scanner.rowW])]
  norm_num [Scanner.rowW, Scanner.sigW]

/-- Witness for **C8**: the concrete bullish breakout on `rowsW` at
price 3. -/
theorem calculate_targets_spec_witness :
    Scanner.asian_range_breakout_strategy (some Scanner.rowsW) 3 = some Scanner.sigW ∧
    ((Scanner.calculate_targets Scanner.sigW 3).2.2 = 20 ∧
    (Scanner.sigW.direction = .buy →
      (Scanner.calculate_targets Scanner.sigW 3).2.1 < 3 ∧
      3 < (Scanner.calculate_targets Scanner.sigW 3).1) ∧
    (Scanner.sigW.direction = .sell →
      (Scanner.calculate_targets Scanner.sigW 3).1 < 3 ∧
      3 < (Scanner.calculate_targets Scanner.sigW 3).2.1)) :=
  ⟨asian_eval_rowsW,
    calculate_targets_spec Scanner.rowsW 3 Scanner.sigW (Or.inl asian_eval_rowsW)⟩

namespace PredictionEngine

/-- Characterisation of a fired home-H2H-dominance rule. -/
theorem ruleHomeH2H_spec {fx : Fixture} {h2h : List HistoricalMatch}
    {p : Prediction} (h : ruleHomeH2H fx h2h = some p) :
    p.label = .w1H2H ∧ p.source = .h2h ∧ 3 ≤ h2h.length := by
  simp only [ruleHomeH2H, Option.ite_none_right_eq_some, Option.some.injEq] at h
  obtain ⟨⟨hlen, _⟩, rfl⟩ := h
  exact ⟨rfl, rfl, hlen⟩

/-- Characterisation of a fired away-H2H-dominance rule. -/
theorem ruleAwayH2H_spec {fx : Fixture} {h2h : List HistoricalMatch}
    {p : Prediction} (h : ruleAwayH2H fx h2h = some p) :
    p.label = .w2H2H ∧ p.source = .h2h ∧ 3 ≤ h2h.length := by
  simp only [ruleAwayH2H, Option.ite_none_right_eq_some, Option.some.injEq] at h
  obtain ⟨⟨hlen, _⟩, rfl⟩ := h
  exact ⟨rfl, rfl, hlen⟩

/-- Characterisation of a fired home-form rule. -/
theorem ruleHomeForm_spec {fx : Fixture} {hf : List HistoricalMatch}
    {p : Prediction} (h : ruleHomeForm fx hf = some p) :
    p.label = .w1Form ∧ p.source = .homeForm ∧ 3 ≤ hf.length := by
  simp only [ruleHomeForm, Option.ite_none_right_eq_some, Option.some.injEq] at h
  obtain ⟨⟨hlen, _⟩, rfl⟩ := h
  exact ⟨rfl, rfl, hlen⟩

/-- Characterisation of a fired away-form rule. -/
theorem ruleAwayForm_spec {fx : Fixture} {af : List HistoricalMatch}
    {p : Prediction} (h : ruleAwayForm fx af = some p) :
    p.label = .w2Form ∧ p.source = .awayForm ∧ 3 ≤ af.length := by
  simp only [ruleAwayForm, Option.ite_none_right_eq_some, Option.some.injEq] at h
  obtain ⟨⟨hlen, _⟩, rfl⟩ := h
  exact ⟨rfl, rfl, hlen⟩

/-- Characterisation of a fired both-teams-score rule. -/
theorem ruleBTS_spec {h2h : List HistoricalMatch}
    {p : Prediction} (h : ruleBTS h2h = some p) :
    p.label = .bts ∧ p.source = .h2h ∧ 3 ≤ h2h.length := by
  simp only [ruleBTS, Option.ite_none_right_eq_some, Option.some.injEq] at h
  obtain ⟨⟨hlen, _⟩, rfl⟩ := h
  exact ⟨rfl, rfl, hlen⟩

/-- Characterisation of a fired over-2.5 rule. -/
theorem ruleOver_spec {h2h : List HistoricalMatch}
    {p : Prediction} (h : ruleOver h2h = some p) :
    p.label = .over25 ∧ p.source = .h2h ∧ 3 ≤ h2h.length := by
  simp only [ruleOver, Option.ite_none_right_eq_some, Option.some.injEq] at h
  obtain ⟨⟨hlen, _⟩, rfl⟩ := h
  exact ⟨rfl, rfl, hlen⟩

/-- Characterisation of a fired under-2.5 rule. -/
theorem ruleUnder_spec {h2h : List HistoricalMatch}
    {p : Prediction} (h : ruleUnder h2h = some p) :
    p.label = .under25 ∧ p.source = .h2h ∧ 3 ≤ h2h.length := by
  simp only [ruleUnder, Option.ite_none_right_eq_some, Option.some.injEq] at h
  obtain ⟨⟨hlen, _⟩, rfl⟩ := h
  exact ⟨rfl, rfl, hlen⟩

/-- Every prediction in `evaluate`'s output was produced by one of the
seven rules; the away-H2H rule only with the home-H2H rule not firing. -/
theorem evaluate_mem_cases {fx : Fixture} {h2h hf af : List HistoricalMatch}
    {p : Prediction} (hp : p ∈ evaluate fx h2h hf af) :
    ruleHomeH2H fx h2h = some p ∨
    (ruleHomeH2H fx h2h = none ∧ ruleAwayH2H fx h2h = some p) ∨
    ruleHomeForm fx hf = some p ∨ ruleAwayForm fx af = some p ∨
    ruleBTS h2h = some p ∨ ruleOver h2h = some p ∨ ruleUnder h2h = some p := by
  unfold evaluate at hp
  cases hh : ruleHomeH2H fx h2h with
  | none => simp_all [Option.mem_toList]
  | some q =>
    simp_all [Option.mem_toList]
    tauto

end PredictionEngine

/-- **C4** (spec-modelled).  For every sample containing fewer than 3
matches, no prediction rule that references that sample fires: `evaluate`
produces no prediction derived from that sample, regardless of the scores
in it. -/
theorem small_sample_rules_skip (fx : PredictionEngine.Fixture)
    (h2h hf af : List PredictionEngine.HistoricalMatch)
    (k : PredictionEngine.SampleKind)
    (h : (PredictionEngine.sampleOf k h2h hf af).length < 3) :
    (PredictionEngine.evaluate fx h2h hf af).all
      (fun p => !(p.source == k)) = true := by
  rw [List.all_eq_true]
  intro p hp
  simp only [Bool.not_eq_true', beq_eq_false_iff_ne]
  intro hk
  subst hk
  rcases PredictionEngine.evaluate_mem_cases hp with
    hr | ⟨_, hr⟩ | hr | hr | hr | hr | hr
  · obtain ⟨_, hs, hlen⟩ := PredictionEngine.ruleHomeH2H_spec hr
    rw [hs] at h; simp [PredictionEngine.sampleOf] at h; omega
  · obtain ⟨_, hs, hlen⟩ := PredictionEngine.ruleAwayH2H_spec hr
    rw [hs] at h; simp [PredictionEngine.sampleOf] at h; omega
  · obtain ⟨_, hs, hlen⟩ := PredictionEngine.ruleHomeForm_spec hr
    rw [hs] at h; simp [PredictionEngine.sampleOf] at h; omega
  · obtain ⟨_, hs, hlen⟩ := PredictionEngine.ruleAwayForm_spec hr
    rw [hs] at h; simp [PredictionEngine.sampleOf] at h; omega
  · obtain ⟨_, hs, hlen⟩ := PredictionEngine.ruleBTS_spec hr
    rw [hs] at h; simp [PredictionEngine.sampleOf] at h; omega
  · obtain ⟨_, hs, hlen⟩ := PredictionEngine.ruleOver_spec hr
    rw [hs] at h; simp [PredictionEngine.sampleOf] at h; omega
  · obtain ⟨_, hs, hlen⟩ := PredictionEngine.ruleUnder_spec hr
    rw [hs] at h; simp [PredictionEngine.sampleOf] at h; omega

/-- Witness for **C4**: a two-match head-to-head sample (home team won
both) yields no h2h-derived prediction. -/
theorem small_sample_rules_skip_witness :
    (PredictionEngine.sampleOf .h2h PredictionEngine.h2hSmall
      PredictionEngine.formW PredictionEngine.formW).length < 3 ∧
    (PredictionEngine.evaluate PredictionEngine.fxW PredictionEngine.h2hSmall
      PredictionEngine.formW PredictionEngine.formW).all
        (fun p => !(p.source == .h2h)) = true :=
  ⟨by decide,
    small_sample_rules_skip PredictionEngine.fxW PredictionEngine.h2hSmall
      PredictionEngine.formW PredictionEngine.formW .h2h (by decide)⟩

/-- **C5** (spec-modelled).  The two H2H dominance rules are mutually
exclusive: for no fixture and samples does `evaluate`'s output contain both
a "W1" H2H label and a "W2" H2H label. -/
theorem h2h_dominance_exclusive (fx : PredictionEngine.Fixture)
    (h2h hf af : List PredictionEngine.HistoricalMatch) :
    ((PredictionEngine.evaluate fx h2h hf af).any
        (fun p => p.label == PredictionEngine.LabelKind.w1H2H) &&
      (PredictionEngine.evaluate fx h2h hf af).any
        (fun p => p.label == PredictionEngine.LabelKind.w2H2H)) = false := by
  cases hh : PredictionEngine.ruleHomeH2H fx h2h with
  | none =>
    have h1 : (PredictionEngine.evaluate fx h2h hf af).any
        (fun p => p.label == PredictionEngine.LabelKind.w1H2H) = false := by
      rw [List.any_eq_false]
      intro p hp
      rcases PredictionEngine.evaluate_mem_cases hp with
        hr | ⟨_, hr⟩ | hr | hr | hr | hr | hr
      · rw [hh] at hr; cases hr
      · obtain ⟨hl, _, _⟩ := PredictionEngine.ruleAwayH2H_spec hr; simp [hl]
      · obtain ⟨hl, _, _⟩ := PredictionEngine.ruleHomeForm_spec hr; simp [hl]
      · obtain ⟨hl, _, _⟩ := PredictionEngine.ruleAwayForm_spec hr; simp [hl]
      · obtain ⟨hl, _, _⟩ := PredictionEngine.ruleBTS_spec hr; simp [hl]
      · obtain ⟨hl, _, _⟩ := PredictionEngine.ruleOver_spec hr; simp [hl]
      · obtain ⟨hl, _, _⟩ := PredictionEngine.ruleUnder_spec hr; simp [hl]
    rw [h1, Bool.false_and]
  | some q =>
    have h2 : (PredictionEngine.evaluate fx h2h hf af).any
        (fun p => p.label == PredictionEngine.LabelKind.w2H2H) = false := by
      rw [List.any_eq_false]
      intro p hp
      rcases PredictionEngine.evaluate_mem_cases hp with
        hr | ⟨hnone, _⟩ | hr | hr | hr | hr | hr
      · obtain ⟨hl, _, _⟩ := PredictionEngine.ruleHomeH2H_spec hr; simp [hl]
      · rw [hh] at hnone; cases hnone
      · obtain ⟨hl, _, _⟩ := PredictionEngine.ruleHomeForm_spec hr; simp [hl]
      · obtain ⟨hl, _, _⟩ := PredictionEngine.ruleAwayForm_spec hr; simp [hl]
      · obtain ⟨hl, _, _⟩ := PredictionEngine.ruleBTS_spec hr; simp [hl]
      · obtain ⟨hl, _, _⟩ := PredictionEngine.ruleOver_spec hr; simp [hl]
      · obtain ⟨hl, _, _⟩ := PredictionEngine.ruleUnder_spec hr; simp [hl]
    rw [h2, Bool.and_false]

/-- **C7** (spec-modelled).  For every probe oracle, league list, start
date and window, `findUpcomingDates` returns a non-empty strictly ascending
date sequence; and when no date in the probed window has any match, it is
the single-element sequence containing today's date, never an empty one. -/
theorem findUpcomingDates_spec (probe : ℕ → ℕ → DateDiscovery.ProbeResult)
    (leagues : List ℕ) (today windowDays : ℕ) :
    DateDiscovery.findUpcomingDates probe leagues today windowDays ≠ [] ∧
    (DateDiscovery.findUpcomingDates probe leagues today windowDays).Sorted (· < ·) ∧
    ((List.range windowDays).all
        (fun i => !DateDiscovery.dateHasFixtures probe leagues (today + i)) = true →
      DateDiscovery.findUpcomingDates probe leagues today windowDays = [today]) := by
  unfold DateDiscovery.findUpcomingDates
  have hsorted :
      (((List.range windowDays).map (fun i => today + i)).filter
        (DateDiscovery.dateHasFixtures probe leagues)).Sorted (· < ·) :=
    List.Pairwise.sublist (List.filter_sublist _)
      ((List.sorted_lt_range windowDays).map _ (fun a b hab => by omega))
  by_cases hemp :
      (((List.range windowDays).map (fun i => today + i)).filter
        (DateDiscovery.dateHasFixtures probe leagues)).isEmpty
  · rw [if_pos hemp]
    refine ⟨by simp, List.sorted_singleton today, fun _ => rfl⟩
  · rw [if_neg hemp]
    refine ⟨fun hnil => hemp (by simp [hnil]), hsorted, fun hall => ?_⟩
    exfalso
    apply hemp
    rw [List.isEmpty_iff, List.filter_eq_nil_iff]
    intro a ha
    rw [List.mem_map] at ha
    obtain ⟨i, hi, rfl⟩ := ha
    rw [List.all_eq_true] at hall
    have := hall i hi
    simp_all

/-- Witness for **C7**: a three-day window in which no league ever reports
a match degrades to `[today]` (today = day 100). -/
theorem findUpcomingDates_spec_witness :
    DateDiscovery.findUpcomingDates DateDiscovery.probeNone [0] 100 3 = [100] :=
  (findUpcomingDates_spec DateDiscovery.probeNone [0] 100 3).2.2 (by decide)

namespace ReportAssembler

/-- The rendered line block has one newline per line. -/
theorem linesText_length (ls : List String) :
    (linesText ls).length = (ls.map (fun s => 1 + s.length)).sum := by
  induction ls with
  | nil => rfl
  | cons l ls ih =>
    have hn : ("\n").length = 1 := rfl
    simp [linesText, String.length_append, ih, hn]

/-- The arithmetic payload size agrees with the size of the rendered
payload text. -/
theorem payloadLen_eq_text_length (p : Payload) :
    payloadLen p = (payloadText p).length := by
  simp [payloadLen, payloadText, String.length_append, linesText_length]

/-- The heading ignores the line block. -/
theorem headingText_update_lines (p : Payload) (ls : List String) :
    headingText { p with lines := ls } = headingText p := by
  cases p with
  | mk k d c l => cases k <;> rfl

/-- Appending one summary line grows the payload by the line plus one
newline. -/
theorem payloadLen_snoc (p : Payload) (s : String) :
    payloadLen { p with lines := p.lines ++ [s] } =
      payloadLen p + 1 + s.length := by
  simp [payloadLen, headingText_update_lines, List.map_append, List.sum_append]
  omega

/-- Exact size of a body-payload heading. -/
theorem headingText_body_length (k : PayloadKind) (d : String) (c : Bool)
    (ls : List String) (hk : k = .body) :
    (headingText { kind := k, date := d, cont := c, lines := ls }).length =
      8 + d.length + (if c then 8 else 0) := by
  subst hk
  cases c <;> simp [headingText, String.length_append] <;> rfl

/-- The continuation-heading overhead in arithmetic form. -/
theorem contOverhead_eq (d : String) : contOverhead d = 17 + d.length := by
  have h1 : "SIGNALS ".length = 8 := rfl
  have h2 : " (cont.)".length = 8 := rfl
  simp [contOverhead, String.length_append, h1, h2]
  omega

/-- `linesOf` distributes over append. -/
theorem linesOf_append (a b : List Payload) :
    linesOf (a ++ b) = linesOf a ++ linesOf b := by
  simp [linesOf]

/-- The pagination loop loses and reorders nothing: the concatenated lines
of its output are the lines of the closed payloads, the open payload and
the pending summaries, in order. -/
theorem packGo_linesOf (d : String) (ss : List String) :
    ∀ (cur : Payload) (acc : List Payload),
      linesOf (packGo d ss cur acc) = linesOf acc ++ cur.lines ++ ss := by
  induction ss with
  | nil =>
    intro cur acc
    unfold packGo
    split
    · next hemp =>
      rw [List.isEmpty_iff] at hemp
      simp [hemp]
    · simp [linesOf_append, linesOf]
  | cons s rest ih =>
    intro cur acc
    unfold packGo
    dsimp only
    split
    · rw [ih]
      simp [linesOf_append, linesOf]
    · rw [ih]
      simp

/-- Every payload the pagination loop emits is a body payload for its
date. -/
theorem packGo_mem (d : String) (ss : List String) :
    ∀ (cur : Payload) (acc : List Payload),
      (∀ q ∈ acc, q.kind = .body ∧ q.date = d) →
      cur.kind = .body → cur.date = d →
      ∀ p ∈ packGo d ss cur acc, p.kind = .body ∧ p.date = d := by
  induction ss with
  | nil =>
    intro cur acc hacc hk hd p hp
    unfold packGo at hp
    split at hp
    · exact hacc p hp
    · rcases List.mem_append.mp hp with h | h
      · exact hacc p h
      · rw [List.mem_singleton] at h
        subst h
        exact ⟨hk, hd⟩
  | cons s rest ih =>
    intro cur acc hacc hk hd p hp
    unfold packGo at hp
    dsimp only at hp
    split at hp
    · refine ih _ _ ?_ rfl rfl p hp
      intro q hq
      rcases List.mem_append.mp hq with h | h
      · exact hacc q h
      · rw [List.mem_singleton] at h
        subst h
        exact ⟨hk, hd⟩
    · exact ih { cur with lines := cur.lines ++ [s] } acc hacc hk hd p hp

end ReportAssembler

namespace ReportAssembler

/-- Size of a freshly opened continuation payload holding one summary. -/
theorem payloadLen_cont_single (d s : String) :
    payloadLen { kind := .body, date := d, cont := true, lines := [s] } =
      contOverhead d + s.length := by
  simp [payloadLen, headingText_body_length, contOverhead_eq, linesText_length]
  omega

/-- A body payload with no lines is no larger than the continuation
overhead (its heading is at most the continuation heading). -/
theorem payloadLen_empty_le (cur : Payload) (d : String)
    (hk : cur.kind = .body) (hd : cur.date = d) (hl : cur.lines = []) :
    payloadLen cur + 1 ≤ contOverhead d := by
  cases cur with
  | mk k d' c l =>
    cases hk
    cases hd
    cases hl
    simp [payloadLen, headingText_body_length, contOverhead_eq]
    cases c <;> simp <;> omega

/-- Under the summaries-fit hypothesis, every payload the pagination loop
emits fits the character budget. -/
theorem packGo_budget (d : String) (ss : List String) :
    ∀ (cur : Payload) (acc : List Payload),
      (∀ s ∈ ss, contOverhead d + s.length ≤ CHAR_BUDGET) →
      (∀ q ∈ acc, payloadLen q ≤ CHAR_BUDGET) →
      (cur.lines ≠ [] → payloadLen cur ≤ CHAR_BUDGET) →
      cur.kind = .body → cur.date = d →
      ∀ p ∈ packGo d ss cur acc, payloadLen p ≤ CHAR_BUDGET := by
  induction ss with
  | nil =>
    intro cur acc hss hacc hcur hk hd p hp
    unfold packGo at hp
    split at hp
    · exact hacc p hp
    · next hne =>
      rcases List.mem_append.mp hp with h | h
      · exact hacc p h
      · rw [List.mem_singleton] at h
        subst h
        exact hcur (fun hl => hne (by simp [hl]))
  | cons s rest ih =>
    intro cur acc hss hacc hcur hk hd p hp
    have hsfit : contOverhead d + s.length ≤ CHAR_BUDGET :=
      hss s (List.mem_cons_self s rest)
    unfold packGo at hp
    dsimp only at hp
    split at hp
    · next hclose =>
      refine ih _ _ (fun t ht => hss t (List.mem_cons_of_mem s ht)) ?_ ?_ rfl rfl p hp
      · intro q hq
        rcases List.mem_append.mp hq with h | h
        · exact hacc q h
        · rw [List.mem_singleton] at h
          subst h
          exact hcur hclose.2
      · intro _
        rw [payloadLen_cont_single]
        exact hsfit
    · next hopen =>
      refine ih { cur with lines := cur.lines ++ [s] } acc
        (fun t ht => hss t (List.mem_cons_of_mem s ht)) hacc ?_ hk hd p hp
      intro _
      rw [payloadLen_snoc]
      by_cases hle : CHAR_BUDGET < payloadLen { cur with lines := cur.lines ++ [s] }
      · have hl : cur.lines = [] := by
          by_contra hne
          exact hopen ⟨hle, hne⟩
        have := payloadLen_empty_le cur d hk hd hl
        rw [payloadLen_snoc] at hle
        omega
      · rw [payloadLen_snoc] at hle
        omega

end ReportAssembler

namespace ReportAssembler

/-- The body payloads of one date's pagination: all of them when the date
matches, none otherwise. -/
theorem bodiesFor_packDate (r : DateReport) (d : String) :
    bodiesFor (packDate r) d =
      if r.date == d then packDate r else [] := by
  have hmem : ∀ p ∈ packDate r, p.kind = .body ∧ p.date = r.date :=
    packGo_mem r.date r.summaries _ [] (by intro q hq; cases hq) rfl rfl
  by_cases hd : r.date = d
  · subst hd
    rw [if_pos (by simp)]
    unfold bodiesFor
    rw [List.filter_eq_self]
    intro p hp
    obtain ⟨hk, hdd⟩ := hmem p hp
    simp [hk, hdd]
  · rw [if_neg (by simpa using hd)]
    unfold bodiesFor
    rw [List.filter_eq_nil_iff]
    intro p hp
    obtain ⟨hk, hdd⟩ := hmem p hp
    simp [hk, hdd, hd]

/-- Concatenated lines of one date's pagination are exactly the date's
summaries. -/
theorem linesOf_packDate (r : DateReport) :
    linesOf (packDate r) = r.summaries := by
  unfold packDate
  rw [packGo_linesOf]
  simp [linesOf]

/-- Per-date reconstruction over the report list. -/
theorem linesOf_bodiesFor_flatten (rs : List DateReport) (d : String) :
    linesOf (bodiesFor (rs.map packDate).flatten d) = summariesFor rs d := by
  induction rs with
  | nil => rfl
  | cons r rest ih =>
    have hsplit :
        bodiesFor ((r :: rest).map packDate).flatten d =
          bodiesFor (packDate r) d ++ bodiesFor (rest.map packDate).flatten d := by
      simp only [List.map_cons, List.flatten_cons]
      unfold bodiesFor
      exact List.filter_append _ _
    rw [hsplit, linesOf_append, ih, bodiesFor_packDate]
    unfold summariesFor
    by_cases hd : r.date = d
    · rw [if_pos (by simp [hd])]
      rw [linesOf_packDate]
      simp [hd]
    · rw [if_neg (by simpa using hd)]
      have : (r :: rest).filter (fun r' => r'.date == d) =
          rest.filter (fun r' => r'.date == d) := by
        rw [List.filter_cons_of_neg (by simpa using hd)]
      rw [this]
      simp [linesOf, summariesFor]

end ReportAssembler

namespace ReportAssembler

/-- **C6** (spec-modelled, amended).  For report inputs whose individual
fixture summaries each fit the budget net of the payload-heading overhead,
`assemble` emits payloads such that, per date, concatenating the lines of
all body payloads — the continuation marker lives in the heading and is
stripped — reproduces exactly the input fixture-summary sequence for that
date, in order, and no emitted body payload exceeds the configured
character budget (3500). -/
theorem assemble_reconstructs_and_fits (rs : List DateReport) (d : String)
    (hfit : summariesFit rs) :
    linesOf (bodiesFor (assemble rs) d) = summariesFor rs d ∧
    bodiesWithinBudget (assemble rs) = true := by
  constructor
  · unfold assemble
    split
    · next hall =>
      have h1 : bodiesFor
          [{ kind := .noSignalsMsg, date := "", cont := false,
             lines := [noSignalsLine rs] }] d = [] := by
        simp [bodiesFor]
      rw [h1]
      have hemp : ∀ r ∈ rs, r.summaries = [] := by
        rw [List.all_eq_true] at hall
        intro r hr
        simpa [List.isEmpty_iff] using hall r hr
      rw [show linesOf [] = [] from rfl, eq_comm]
      unfold summariesFor
      rw [List.flatten_eq_nil_iff]
      intro l hl
      rw [List.mem_map] at hl
      obtain ⟨r, hr, rfl⟩ := hl
      exact hemp r (List.mem_filter.mp hr).1
    · next hall =>
      have h2 : bodiesFor
          ({ kind := .headerMsg, date := "", cont := false,
             lines := [headerLine rs] } ::
            ((rs.map packDate).flatten ++
              [{ kind := .footerMsg, date := "", cont := false,
                 lines := ["Predictions are heuristic counts, not advice"] }])) d =
          bodiesFor (rs.map packDate).flatten d := by
        unfold bodiesFor
        rw [List.filter_cons_of_neg (by simp), List.filter_append]
        simp
      rw [h2]
      exact linesOf_bodiesFor_flatten rs d
  · unfold assemble
    split
    · simp [bodiesWithinBudget]
    · next hall =>
      unfold bodiesWithinBudget
      rw [List.all_eq_true]
      intro p hp
      rcases List.mem_cons.mp hp with rfl | hp'
      · simp
      rcases List.mem_append.mp hp' with hp2 | hp3
      · rw [List.mem_flatten] at hp2
        obtain ⟨ps, hps, hpmem⟩ := hp2
        rw [List.mem_map] at hps
        obtain ⟨r, hr, rfl⟩ := hps
        have hb := packGo_budget r.date r.summaries _ []
          (fun t ht => hfit r hr t ht)
          (by intro q hq; cases hq)
          (fun h => absurd rfl h) rfl rfl p hpmem
        simp [hb]
      · rw [List.mem_singleton] at hp3
        subst hp3
        simp

end ReportAssembler

/-- Witness for **C6**: a one-date report with two short summaries is
reproduced exactly and fits the budget. -/
theorem assemble_reconstructs_and_fits_witness :
    ReportAssembler.summariesFit ReportAssembler.rsGood ∧
    (ReportAssembler.linesOf
        (ReportAssembler.bodiesFor
          (ReportAssembler.assemble ReportAssembler.rsGood) "2026-01-01") =
      ReportAssembler.summariesFor ReportAssembler.rsGood "2026-01-01" ∧
    ReportAssembler.bodiesWithinBudget
      (ReportAssembler.assemble ReportAssembler.rsGood) = true) :=
  ⟨by unfold ReportAssembler.summariesFit; decide,
    ReportAssembler.assemble_reconstructs_and_fits ReportAssembler.rsGood
      "2026-01-01" (by unfold ReportAssembler.summariesFit; decide)⟩

/-- Counterexample for **C6** as stated: with a 4000-character fixture
summary, `assemble` emits a body payload of 4019 characters, exceeding the
3500-character budget — the unamended claim ("no emitted payload exceeds
the budget" for *every* input) is false. -/
theorem assemble_budget_counterexample :
    ReportAssembler.bodiesWithinBudget
      (ReportAssembler.assemble ReportAssembler.rsBad) = false := by
  have hlenBig : ReportAssembler.sBig.length = 4000 := by
    show (List.replicate 4000 'a').length = 4000
    rw [List.length_replicate]
  have hpack : ReportAssembler.packDate
      { date := "2026-01-01", totalFixtures := 1
        summaries := [ReportAssembler.sBig], predicted := 1 } =
      [{ kind := .body, date := "2026-01-01", cont := false,
         lines := [ReportAssembler.sBig] }] := by
    unfold ReportAssembler.packDate
    unfold ReportAssembler.packGo
    rw [if_neg (by simp)]
    unfold ReportAssembler.packGo
    rfl
  have hplen : ReportAssembler.payloadLen
      { kind := .body, date := "2026-01-01", cont := false,
        lines := [ReportAssembler.sBig] } = 4019 := by
    have hd10 : ("2026-01-01").length = 10 := rfl
    unfold ReportAssembler.payloadLen
    rw [ReportAssembler.headingText_body_length _ _ _ _ rfl]
    simp [hlenBig, hd10]
  unfold ReportAssembler.assemble
  rw [if_neg (by simp [ReportAssembler.rsBad])]
  unfold ReportAssembler.rsBad
  simp [ReportAssembler.bodiesWithinBudget, hpack, hplen,
    ReportAssembler.CHAR_BUDGET]
